import Mathlib

/-!
Verification of the URL-identity resolution and metadata-caching layer of
tgdrive/vfscache-proxy, shallowly embedded from the Go sources:
  - src/backend/link/link.go  (identity table, retry classification, metadata probe)
  - src/backend/link/strip.go (URL canonicalization)
  - the vfsproxy HTTP handler (Serve / ServeFile)
Machine integers (Go int64 / uint64) are modelled as Int / Nat with explicit
reductions modulo 2^64 where the code casts between them.
-/

namespace VfsProxy

/-! ## Identity table (src/backend/link/link.go, lines 47-67)

The Go code keeps a `sync.Map` from remote identifier to `entry{url, header}`.
`Register` calls `urlMap.Store`, which unconditionally replaces any existing
value; `Load` returns the stored URL when present.  `http.Header` is modelled
as an association list of header name/value pairs. -/

abbrev Header := List (String × String)

structure Entry where
  url : String
  header : Header
deriving DecidableEq

/-- The `urlMap` state: a finite partial map from identifier to entry. -/
def UrlMap := String → Option Entry

/-- Embedding of `Register` (link.go line 57): `urlMap.Store(remote, &entry{url, header})`.
`sync.Map.Store` replaces the previous value for the key unconditionally. -/
def Register (m : UrlMap) (remote url : String) (header : Header) : UrlMap :=
  fun k => if k = remote then some ⟨url, header⟩ else m k

/-- Embedding of `Load` (link.go line 61): returns the stored URL and a found
flag, modelled as `Option String`. -/
def Load (m : UrlMap) (remote : String) : Option String :=
  (m remote).map (fun e => e.url)

/-! ## Retry classification (src/backend/link/link.go, lines 24-45)

`shouldRetry(resp, err)` first consults `fserrors.ShouldRetry(err)` when the
call ended in a network error; otherwise it scans `retryErrorCodes` for the
response status.  A probe attempt therefore ends either in a network error
(carrying rclone's retryable classification, modelled as a Bool parameter
since `fserrors` is an external library) or in an HTTP response with a status
code. -/

def retryErrorCodes : List Int := [429, 500, 502, 503, 504, 509]

inductive ProbeOutcome where
  | netError (retryable : Bool)
  | httpResponse (status : Int)
deriving DecidableEq

/-- Embedding of `shouldRetry` (link.go lines 33-45). -/
def shouldRetry : ProbeOutcome → Bool
  | .netError retryable => retryable
  | .httpResponse status => retryErrorCodes.contains status

/-! ## Content-Range parsing (src/backend/link/link.go, lines 226-233)

The code runs `fmt.Sscanf(contentRange, "bytes %d-%d/%d", &start, &end,
&total)` and uses `total` only when `err == nil`, i.e. when all three verbs
parsed.  The model follows Go's scanning rules for this format string,
restricted to ASCII spacing: the literal `bytes` must match exactly; the run
of spaces in the format consumes as many spaces as possible and must consume
at least one space or find the end of the input; each `%d` first discards
leading spaces, then reads an optionally signed decimal number; the literals
`-` and `/` must match exactly; trailing input is ignored. -/

def isScanSpace (c : Char) : Bool := c = ' ' || c = '\t'

/-- Accumulate further decimal digits (the continuation of a `%d` verb). -/
def takeDigits : List Char → Nat → Nat × List Char
  | [], acc => (acc, [])
  | c :: cs, acc =>
      if c.isDigit then takeDigits cs (acc * 10 + (c.toNat - 48)) else (acc, c :: cs)

/-- Read one or more decimal digits; fails when the input does not start
with a digit. -/
def scanDigits : List Char → Option (Nat × List Char)
  | [] => none
  | c :: cs => if c.isDigit then some (takeDigits cs (c.toNat - 48)) else none

/-- The `%d` verb: discard leading spaces, then an optionally signed decimal
number. -/
def scanInt (l : List Char) : Option (Int × List Char) :=
  match l.dropWhile isScanSpace with
  | '-' :: rest => (scanDigits rest).map (fun p => (-(p.1 : Int), p.2))
  | '+' :: rest => (scanDigits rest).map (fun p => ((p.1 : Int), p.2))
  | rest => (scanDigits rest).map (fun p => ((p.1 : Int), p.2))

/-- Match a literal run of format characters against the input. -/
def dropLit : List Char → List Char → Option (List Char)
  | [], input => some input
  | _ :: _, [] => none
  | c :: cs, r :: rs => if r = c then dropLit cs rs else none

/-- Embedding of `fmt.Sscanf(s, "bytes %d-%d/%d", ...)` succeeding with all
three items parsed (link.go line 229). -/
def parseContentRange (s : String) : Option (Int × Int × Int) := do
  let r0 ← dropLit "bytes".toList s.toList
  match r0 with
  | [] => none
  | c :: _ =>
    if isScanSpace c then do
      let p1 ← scanInt r0
      let r2 ← dropLit ['-'] p1.2
      let p2 ← scanInt r2
      let r4 ← dropLit ['/'] p2.2
      let p3 ← scanInt r4
      pure (p1.1, p2.1, p3.1)
    else none

/-! ## Metadata resolution (src/backend/link/link.go, lines 166-253)

`Fs.NewObject` issues a HEAD probe, falls back to a ranged GET when the HEAD
outcome is unusable, and then finalizes the (size, modTime) record from the
final response.  An upstream response is modelled by its status code, its
transport-reported content length (`-1` for unknown), the raw value of the
`Content-Range` header (`""` when absent, as returned by `Header.Get`), and
the parse of the `Last-Modified` header (`none` when the header is absent or
`http.ParseTime` fails; time instants are UnixNano integers).  A probe
outcome is `Except Unit Resp`: `.error` when `client.Do` (after pacer
retries) returned an error or a nil response. -/

structure Resp where
  status : Int
  contentLength : Int
  contentRange : String
  lastModified : Option Int
deriving DecidableEq

structure Record where
  size : Int
  modTime : Int
deriving DecidableEq

inductive MetaError where
  | network
  | badStatus (status : Int)
  | unknownSize
deriving DecidableEq

/-- Embedding of the GET-fallback condition (link.go line 200):
`err != nil || (resp == nil || resp.StatusCode != http.StatusOK) ||
resp.ContentLength < 0`. -/
def needsFallback : Except Unit Resp → Bool
  | .error _ => true
  | .ok r => decide (r.status ≠ 200) || decide (r.contentLength < 0)

/-- The resolved size of the final response (link.go lines 224-234): the
transport content length, replaced by the `Content-Range` trailing total when
the status is 206, the header is non-empty, and the `Sscanf` parse succeeds. -/
def resolvedSize (r : Resp) : Int :=
  if r.status = 206 then
    if r.contentRange ≠ "" then
      match parseContentRange r.contentRange with
      | some t => t.2.2
      | none => r.contentLength
    else r.contentLength
  else r.contentLength

/-- Embedding of the tail of `Fs.NewObject` (link.go lines 219-253): reject a
final status other than 200/206, compute the resolved size and the
modification time (`Last-Modified` when parsed, else the current wall clock
`now`), and reject a negative resolved size. -/
def finalize (r : Resp) (now : Int) : Except MetaError Record :=
  if r.status ≠ 200 ∧ r.status ≠ 206 then .error (.badStatus r.status)
  else if resolvedSize r < 0 then .error .unknownSize
  else .ok ⟨resolvedSize r, r.lastModified.getD now⟩

/-- Embedding of the probe orchestration of `Fs.NewObject` (link.go lines
187-253): the HEAD outcome is used directly unless the fallback condition
holds, in which case the GET outcome is used; an error outcome of the chosen
probe aborts resolution. -/
def resolveMetadata (head get : Except Unit Resp) (now : Int) :
    Except MetaError Record :=
  match (if needsFallback head then get else head) with
  | .error _ => .error .network
  | .ok r => finalize r now

/-! ## Metadata cache record encoding (src/backend/link/link.go)

On success `NewObject` stores a 16-byte value (lines 247-253):
`binary.LittleEndian.PutUint64(buf[:8], uint64(size))` and
`binary.LittleEndian.PutUint64(buf[8:], uint64(modTime.UnixNano()))`.
On a cache hit (lines 151-164) it reads back
`size := int64(binary.LittleEndian.Uint64(val[:8]))` and
`modTime := time.Unix(0, int64(binary.LittleEndian.Uint64(val[8:])))`,
accepting the value only when it is exactly 16 bytes long.  Bytes are
naturals below 256; the int64-to-uint64 cast is reduction modulo 2^64 and
the uint64-to-int64 cast subtracts 2^64 from values at or above 2^63; a
`time.Time` is identified with its UnixNano instant. -/

/-- Go's `uint64(i)` conversion of an `int64`. -/
def int64ToUint64 (i : Int) : Nat := (i % (2 : Int) ^ 64).toNat

/-- Go's `int64(n)` conversion of a `uint64`. -/
def uint64ToInt64 (n : Nat) : Int :=
  if n < 2 ^ 63 then (n : Int) else (n : Int) - 2 ^ 64

/-- Embedding of `binary.LittleEndian.PutUint64`. -/
def putUint64LE (n : Nat) : List Nat :=
  [n % 256, n / 256 % 256, n / 256 ^ 2 % 256, n / 256 ^ 3 % 256,
   n / 256 ^ 4 % 256, n / 256 ^ 5 % 256, n / 256 ^ 6 % 256, n / 256 ^ 7 % 256]

/-- Embedding of `binary.LittleEndian.Uint64` on an 8-byte slice. -/
def leUint64 : List Nat → Nat
  | [b0, b1, b2, b3, b4, b5, b6, b7] =>
      b0 + 256 * b1 + 256 ^ 2 * b2 + 256 ^ 3 * b3 +
        256 ^ 4 * b4 + 256 ^ 5 * b5 + 256 ^ 6 * b6 + 256 ^ 7 * b7
  | _ => 0

/-- The 16-byte cache value written on successful resolution (link.go lines
248-250). -/
def encodeRecord (size modTimeNano : Int) : List Nat :=
  putUint64LE (int64ToUint64 size) ++ putUint64LE (int64ToUint64 modTimeNano)

/-- The cache-hit decoding path (link.go lines 152-154), guarded by the
16-byte length check. -/
def decodeRecord (val : List Nat) : Option (Int × Int) :=
  if val.length = 16 then
    some (uint64ToInt64 (leUint64 (val.take 8)),
          uint64ToInt64 (leUint64 (val.drop 8)))
  else none

/-! ## URL canonicalization (src/backend/link/strip.go)

`StripURL` delegates to Go's `net/url` package: `url.Parse` and
`URL.String`.  The model below embeds the relevant behavior of `net/url`
(scheme detection, fragment and query splitting, authority/userinfo/host
parsing with port validation, opaque URLs, the OmitHost and ForceQuery
flags, and the serialization rules of `URL.String` including the `//` and
`./` guards).  Percent-escape decoding is not modelled: every component is
kept in its raw textual form, which coincides with Go's behavior on
escape-free URLs, where `EscapedPath`/`EscapedFragment`/host escaping
reproduce the parsed text verbatim. -/

structure GoURL where
  scheme : String := ""
  opaquePart : String := ""
  user : Option String := none
  host : String := ""
  path : String := ""
  omitHost : Bool := false
  forceQuery : Bool := false
  rawQuery : String := ""
  fragment : String := ""
deriving DecidableEq

/-- Go `stringContainsCTLByte`. -/
def containsCTL (s : String) : Bool :=
  s.toList.any (fun c => c.toNat < 32 || c.toNat == 127)

def startsWithSlash : List Char → Bool
  | '/' :: _ => true
  | _ => false

def startsWithDoubleSlash : List Char → Bool
  | '/' :: '/' :: _ => true
  | _ => false

def startsWithTripleSlash : List Char → Bool
  | '/' :: '/' :: '/' :: _ => true
  | _ => false

/-- Go `strings.Cut` at the first occurrence of a character: the part
before and, when the separator occurs, the part after it. -/
def cutChar (sep : Char) : List Char → List Char × Option (List Char)
  | [] => ([], none)
  | c :: cs =>
      if c = sep then ([], some cs)
      else
        let r := cutChar sep cs
        (c :: r.1, r.2)

/-- Split at the last occurrence of a character (Go `strings.LastIndex`):
the parts before and after it, when it occurs. -/
def lastIndexSplit (sep : Char) (l : List Char) : Option (List Char × List Char) :=
  match cutChar sep l.reverse with
  | (_, none) => none
  | (afterRev, some beforeRev) => some (beforeRev.reverse, afterRev.reverse)

/-- Go `parse`: cut the authority off at the first `/`, keeping the slash
with the remainder. -/
def splitAuthority (l : List Char) : List Char × List Char :=
  match cutChar '/' l with
  | (before, none) => (before, [])
  | (before, some after) => (before, '/' :: after)

/-- Result of Go `getScheme`: no scheme (the input is used whole), a scheme
with the remainder after the colon, or a parse error (colon first). -/
inductive SchemeResult where
  | noScheme
  | schemeSplit (s rest : List Char)
  | fail

/-- Loop body of Go `getScheme` (net/url). -/
def getSchemeAux (seen : List Char) : List Char → SchemeResult
  | [] => .noScheme
  | c :: cs =>
      if c.isAlpha then getSchemeAux (seen ++ [c]) cs
      else if c.isDigit || c == '+' || c == '-' || c == '.' then
        if seen = [] then .noScheme else getSchemeAux (seen ++ [c]) cs
      else if c = ':' then
        if seen = [] then .fail else .schemeSplit seen cs
      else .noScheme

def getScheme (l : List Char) : SchemeResult := getSchemeAux [] l

/-- Go `validOptionalPort`: empty, or a colon followed by decimal digits. -/
def validOptionalPort : List Char → Bool
  | [] => true
  | ':' :: rest => rest.all Char.isDigit
  | _ => false

/-- Go `parseHost`, with components kept raw (percent-decoding not
modelled): a bracketed IPv6 literal needs a closing bracket and a valid
optional port after it, any other host needs a valid optional port after
its last colon. -/
def parseHost (host : List Char) : Option (List Char) :=
  match host with
  | '[' :: _ =>
      match lastIndexSplit ']' host with
      | none => none
      | some (_, colonPort) =>
          if validOptionalPort colonPort then some host else none
  | _ =>
      match lastIndexSplit ':' host with
      | none => some host
      | some (_, portPart) =>
          if validOptionalPort (':' :: portPart) then some host else none

/-- Character set admitted by Go `validUserinfo` (39 is the apostrophe). -/
def isUserinfoChar (c : Char) : Bool :=
  c.isAlpha || c.isDigit ||
  c == '-' || c == '.' || c == '_' || c == ':' || c == '~' || c == '!' ||
  c == '$' || c == '&' || c.toNat == 39 || c == '(' || c == ')' ||
  c == '*' || c == '+' || c == ',' || c == ';' || c == '=' || c == '%' ||
  c == '@'

def validUserinfo (l : List Char) : Bool := l.all isUserinfoChar

/-- Go `parseAuthority`: split userinfo at the last `@`, parse the host,
validate the userinfo characters. -/
def parseAuthority (authority : List Char) :
    Option (Option (List Char) × List Char) :=
  match lastIndexSplit '@' authority with
  | none =>
      match parseHost authority with
      | none => none
      | some h => some (none, h)
  | some (userinfo, hostPart) =>
      match parseHost hostPart with
      | none => none
      | some h =>
          if validUserinfo userinfo then some (some userinfo, h) else none

/-- Continuation of Go `parse(rawURL, false)` after scheme extraction:
query/ForceQuery splitting, the opaque early return, the
colon-in-first-segment check for relative paths, authority parsing, and the
OmitHost flag. -/
def parseAfterScheme (scheme : String) (rest0 : List Char) : Option GoURL :=
  let cut :=
    if rest0.getLast? = some '?' ∧ rest0.dropLast.contains '?' = false then
      (rest0.dropLast, ([] : List Char), true)
    else
      match cutChar '?' rest0 with
      | (before, none) => (before, ([] : List Char), false)
      | (before, some after) => (before, after, false)
  let rest := cut.1
  let rawQuery := cut.2.1
  let forceQuery := cut.2.2
  if startsWithSlash rest = false ∧ scheme ≠ "" then
    some { scheme := scheme, opaquePart := String.mk rest,
           rawQuery := String.mk rawQuery, forceQuery := forceQuery }
  else if startsWithSlash rest = false ∧
      (rest.takeWhile (fun c => c != '/')).contains ':' = true then
    none
  else if (scheme ≠ "" ∨ startsWithTripleSlash rest = false) ∧
      startsWithDoubleSlash rest = true then
    let auth := splitAuthority (rest.drop 2)
    match parseAuthority auth.1 with
    | none => none
    | some userHost =>
        some { scheme := scheme, user := userHost.1.map (fun l => String.mk l),
               host := String.mk userHost.2,
               path := String.mk auth.2,
               rawQuery := String.mk rawQuery, forceQuery := forceQuery }
  else
    some { scheme := scheme,
           omitHost := decide (scheme ≠ "") && startsWithSlash rest,
           path := String.mk rest,
           rawQuery := String.mk rawQuery, forceQuery := forceQuery }

/-- Inner Go `parse(rawURL, false)`: the CTL-byte rejection, the `*`
special case, and scheme extraction with lowercasing. -/
def parseInner (rawURL : String) : Option GoURL :=
  if containsCTL rawURL then none
  else if rawURL = "*" then some { path := "*" }
  else
    match getScheme rawURL.toList with
    | .fail => none
    | .noScheme => parseAfterScheme "" rawURL.toList
    | .schemeSplit s rest => parseAfterScheme (String.mk (s.map Char.toLower)) rest

/-- Go `url.Parse`: cut the fragment off at the first `#`, parse the rest,
then attach the fragment. -/
def urlParse (rawURL : String) : Option GoURL :=
  match cutChar '#' rawURL.toList with
  | (u, frag) =>
      match parseInner (String.mk u) with
      | none => none
      | some url =>
          match frag with
          | none => some url
          | some f => some { url with fragment := String.mk f }

def firstSegment (l : List Char) : List Char := l.takeWhile (fun c => c != '/')

/-- Go `URL.String`, with components written raw (coinciding with
`EscapedPath`/`EscapedFragment`/host escaping on escape-free URLs). -/
def urlString (u : GoURL) : String :=
  let schemePart := if u.scheme ≠ "" then u.scheme ++ ":" else ""
  let core :=
    if u.opaquePart ≠ "" then schemePart ++ u.opaquePart
    else
      let authority :=
        if u.scheme ≠ "" ∨ u.host ≠ "" ∨ u.user ≠ none then
          if u.omitHost = true ∧ u.host = "" ∧ u.user = none then ""
          else
            (if u.host ≠ "" ∨ u.path ≠ "" ∨ u.user ≠ none then "//" else "") ++
              (match u.user with
               | some ui => ui ++ "@"
               | none => "") ++ u.host
        else ""
      let slashFix :=
        if u.path ≠ "" ∧ startsWithSlash u.path.toList = false ∧ u.host ≠ "" then
          "/"
        else ""
      let base := schemePart ++ authority ++ slashFix
      let dotFix :=
        if base = "" ∧ (firstSegment u.path.toList).contains ':' = true then "./"
        else ""
      base ++ dotFix ++ u.path
  core ++ (if u.forceQuery = true ∨ u.rawQuery ≠ "" then "?" ++ u.rawQuery else "") ++
    (if u.fragment ≠ "" then "#" ++ u.fragment else "")

/-- Embedding of `StripURL` (src/backend/link/strip.go lines 9-30). -/
def StripURL (u : String) (stripQuery stripDomain : Bool) : String :=
  if !stripQuery && !stripDomain then u
  else
    match urlParse u with
    | none => u
    | some parsedURL =>
        let p1 := if stripQuery then { parsedURL with rawQuery := "" } else parsedURL
        let p2 :=
          if stripDomain then
            { p1 with scheme := "", host := "", user := none, fragment := "" }
          else p1
        urlString p2

/-! ## Content server (Handler.Serve / Handler.ServeFile, pkg/vfsproxy)

The handler keeps two shared structures: the hash cache (`hashCache`,
protected by a mutex, modelled as a partial map) and the identity table of
the link backend.  The VFS collaborator is abstracted by a `stat` function
returning the outcome of `VFS.Stat` plus the per-node data the handler
reads (`IsFile`, `DirEntry` presence, size, modification time, MIME type,
and whether `Open` succeeds).  `md5.Sum`/hex digesting and the repository's
`link.ShardedPath` (whose source is not under src/) are abstracted as
function parameters; no claim depends on their behavior.  Responses are
modelled by the exit taken in `ServeFile`, carrying the headers set before
the body decision. -/

structure Node where
  isFile : Bool
  hasDirEntry : Bool
  size : Int
  modTime : Int
  mimeType : String
  openOk : Bool
deriving DecidableEq

inductive StatResult where
  | enoent
  | statError
  | okNode (n : Node)
deriving DecidableEq

structure RespHeaders where
  contentLength : Option Int
  contentType : Option String
  lastModified : Int
deriving DecidableEq

inductive ServeResult where
  | badRequest
  | fileNotFound
  | notAFile
  | fileBeingWritten
  | statFailure
  | headOnly (headers : RespHeaders)
  | openFailure
  | servedRanged (headers : RespHeaders)
  | rangeNotSatisfiable
  | streamedFull (headers : RespHeaders)
deriving DecidableEq

/-- Go `path.Ext`: scan from the end, stop at a slash, return from the
final dot. -/
def extFromRev : List Char → List Char → String
  | [], _ => ""
  | c :: rest, acc =>
      if c = '/' then ""
      else if c = '.' then String.mk (c :: acc)
      else extFromRev rest (c :: acc)

def pathExt (s : String) : String := extFromRev s.toList.reverse []

/-- The headers `ServeFile` sets before deciding on a body: Content-Length
only for a known size, Content-Type omitted when sniffing yields the
generic binary type and the path has no extension, Last-Modified always. -/
def mkHeaders (remote : String) (n : Node) : RespHeaders :=
  { contentLength := if 0 ≤ n.size then some n.size else none
    contentType :=
      if n.mimeType = "application/octet-stream" ∧ pathExt remote = "" then none
      else some n.mimeType
    lastModified := n.modTime }

/-- Embedding of `Handler.ServeFile` (part_000 lines 243-306). -/
def ServeFile (stat : String → StatResult) (method rangeHeader remote : String) :
    ServeResult :=
  match stat remote with
  | .enoent => .fileNotFound
  | .statError => .statFailure
  | .okNode n =>
      if n.isFile = false then .notAFile
      else if n.hasDirEntry = false then .fileBeingWritten
      else
        let headers := mkHeaders remote n
        if method = "HEAD" then .headOnly headers
        else if n.openOk = false then .openFailure
        else if 0 ≤ n.size then .servedRanged headers
        else if rangeHeader ≠ "" then .rangeNotSatisfiable
        else .streamedFull headers

structure ProxyState where
  urlMap : UrlMap
  hashCache : String → Option String

/-- Embedding of `Handler.getFileHash` (part_000 lines 203-228): return the
cached digest, or strip the URL, digest it, and cache the result (the
double-checked locking collapses to a single check in the sequential
model). -/
def getFileHash (hashFn : String → String) (stripQuery stripDomain : Bool)
    (st : ProxyState) (targetURL : String) : String × ProxyState :=
  match st.hashCache targetURL with
  | some h => (h, st)
  | none =>
      let keyURL := StripURL targetURL stripQuery stripDomain
      let computed := hashFn keyURL
      (computed,
        { st with
          hashCache := fun k =>
            if k = targetURL then some computed else st.hashCache k })

/-- Embedding of `Handler.Serve` (part_000 lines 230-241): reject an empty
target URL with 400, otherwise derive the file hash, register the identity,
and serve the sharded path. -/
def Serve (hashFn : String → String) (stripQuery stripDomain : Bool)
    (shardLevel : Nat) (shardedPath : String → Nat → String)
    (stat : String → StatResult) (st : ProxyState)
    (method rangeHeader targetURL : String) (reqHeader : Header) :
    ServeResult × ProxyState :=
  if targetURL = "" then (.badRequest, st)
  else
    let fh := getFileHash hashFn stripQuery stripDomain st targetURL
    let st2 := { fh.2 with urlMap := Register fh.2.urlMap fh.1 targetURL reqHeader }
    (ServeFile stat method rangeHeader (shardedPath fh.1 shardLevel), st2)

end VfsProxy

namespace VfsProxy

/-! ## Claim C1 -/

/-- A concrete identity table already holding identifier "id1". -/
def c1Map : UrlMap :=
  fun k => if k = "id1" then some ⟨"https://a.example/one", []⟩ else none

/-- C1 counterexample: the claim says re-registering an already-present
identifier with a different URL is a no-op (first-writer-wins).  On the code,
`Register` is `sync.Map.Store`, which overwrites: after re-registering "id1"
with a different URL, `Load` no longer returns the originally stored URL. -/
theorem c1_register_not_first_writer_wins :
    Load c1Map "id1" = some "https://a.example/one" ∧
    Load (Register c1Map "id1" "https://b.example/two" []) "id1" ≠
      some "https://a.example/one" := by
  constructor
  · rfl
  · decide

/-- C1 (amended): for every identifier already present in the identity table,
calling register again with a different URL overwrites the stored entry:
after the call, lookup of that identifier returns the newly supplied URL
(last-writer-wins). -/
theorem c1_register_overwrites (m : UrlMap) (remote u0 u1 : String)
    (hd : Header) (hp : Load m remote = some u0) (hne : u1 ≠ u0) :
    Load (Register m remote u1 hd) remote = some u1 := by
  simp [Load, Register]

/-- C1 witness: the amended theorem applied to the concrete table. -/
theorem c1_register_overwrites_witness :
    Load (Register c1Map "id1" "https://b.example/two" []) "id1" =
      some "https://b.example/two" :=
  c1_register_overwrites c1Map "id1" "https://a.example/one"
    "https://b.example/two" [] rfl (by decide)

/-! ## Claim C4 -/

/-- C4: the retry predicate classifies a probe attempt as retryable exactly
when it ended in a network error classified retryable, or in an HTTP response
whose status is one of exactly 429, 500, 502, 503, 504, 509. -/
theorem c4_shouldRetry_characterization (o : ProbeOutcome) :
    shouldRetry o = true ↔
      (o = .netError true ∨
        ∃ s, o = .httpResponse s ∧
          (s = 429 ∨ s = 500 ∨ s = 502 ∨ s = 503 ∨ s = 504 ∨ s = 509)) := by
  cases o with
  | netError r =>
      cases r <;> simp [shouldRetry]
  | httpResponse s =>
      simp only [shouldRetry, retryErrorCodes]
      constructor
      · intro h
        right
        refine ⟨s, rfl, ?_⟩
        simpa [List.contains, or_assoc] using h
      · rintro (h | ⟨t, ht, hmem⟩)
        · exact absurd h (by simp)
        · cases ht
          simpa [List.contains, or_assoc] using hmem

/-! ## Claim C2 -/

/-- C2: the GET fallback with header `Range: bytes=0-0` is issued if and only
if the HEAD probe returned an error, or a status other than 200, or a
response whose content length is unknown (negative); otherwise the HEAD
response is used directly (the resolution result does not depend on the GET
outcome). -/
theorem c2_fallback_condition (head : Except Unit Resp) :
    (needsFallback head = true ↔
       head = .error () ∨
         ∃ r, head = .ok r ∧ (r.status ≠ 200 ∨ r.contentLength < 0)) ∧
    (∀ get now r, head = .ok r → needsFallback head = false →
       resolveMetadata head get now = finalize r now) := by
  constructor
  · cases head with
    | error e => cases e; simp [needsFallback]
    | ok r =>
        simp only [needsFallback, Bool.or_eq_true, decide_eq_true_eq]
        constructor
        · intro h; exact Or.inr ⟨r, rfl, h⟩
        · rintro (h | ⟨r2, hr2, h⟩)
          · exact absurd h (by simp)
          · cases hr2; exact h
  · intro get now r hr hf
    subst hr
    simp [resolveMetadata, hf]

/-- C2 witness: a HEAD response with status 200 and a known content length is
used directly, whatever the GET outcome would have been. -/
theorem c2_fallback_condition_witness :
    resolveMetadata (.ok ⟨200, 500, "", none⟩) (.error ()) 7 =
      finalize ⟨200, 500, "", none⟩ 7 :=
  (c2_fallback_condition (.ok ⟨200, 500, "", none⟩)).2 (.error ()) 7
    ⟨200, 500, "", none⟩ rfl (by decide)

/-! ## Claim C3 -/

/-- C3: finalization of the final probe response fails if and only if the
status is neither 200 nor 206, or the resolved size is negative; in all
other cases it returns a record carrying the resolved size (which is then
nonnegative) and the resolved modification time. -/
theorem c3_finalize_characterization (r : Resp) (now : Int) :
    ((∃ e, finalize r now = .error e) ↔
       (r.status ≠ 200 ∧ r.status ≠ 206) ∨ resolvedSize r < 0) ∧
    (∀ rec, finalize r now = .ok rec →
       rec.size = resolvedSize r ∧ 0 ≤ rec.size ∧
         rec.modTime = r.lastModified.getD now) := by
  constructor
  · unfold finalize
    by_cases hs : r.status ≠ 200 ∧ r.status ≠ 206
    · rw [if_pos hs]
      simp [hs]
    · rw [if_neg hs]
      by_cases hneg : resolvedSize r < 0
      · rw [if_pos hneg]
        simp [hneg]
      · rw [if_neg hneg]
        simp [hs, hneg]
  · intro rec h
    unfold finalize at h
    by_cases hs : r.status ≠ 200 ∧ r.status ≠ 206
    · rw [if_pos hs] at h
      exact absurd h (by simp)
    · rw [if_neg hs] at h
      by_cases hneg : resolvedSize r < 0
      · rw [if_pos hneg] at h
        exact absurd h (by simp)
      · rw [if_neg hneg] at h
        injection h with h2
        subst h2
        refine ⟨rfl, ?_, rfl⟩
        show 0 ≤ resolvedSize r
        omega

/-- C3 witness: a 200 response with content length 500 resolves to a record
of size 500. -/
theorem c3_finalize_characterization_witness :
    finalize ⟨200, 500, "", none⟩ 7 = .ok ⟨500, 7⟩ ∧
    (500 : Int) = resolvedSize ⟨200, 500, "", none⟩ := by
  have h := (c3_finalize_characterization ⟨200, 500, "", none⟩ 7).2 ⟨500, 7⟩ rfl
  exact ⟨rfl, h.1.symm⟩

/-! ## Claim C5 -/

/-- C5: for a 206 Partial Content response, the resolved size is the trailing
total of the `Content-Range` header when the header is present and parses in
the format `bytes start-end/total`; when the header is absent or does not
parse, the resolved size remains the transport-reported content length; and a
successful finalization carries exactly the resolved size. -/
theorem c5_content_range_total (r : Resp) (now : Int) (h206 : r.status = 206) :
    (∀ s e t, r.contentRange ≠ "" →
       parseContentRange r.contentRange = some (s, e, t) → resolvedSize r = t) ∧
    (r.contentRange = "" ∨ parseContentRange r.contentRange = none →
       resolvedSize r = r.contentLength) ∧
    (∀ rec, finalize r now = .ok rec → rec.size = resolvedSize r) := by
  refine ⟨?_, ?_, ?_⟩
  · intro s e t hne hp
    simp [resolvedSize, h206, hne, hp]
  · rintro (habs | hfail)
    · simp [resolvedSize, h206, habs]
    · by_cases hne : r.contentRange = ""
      · simp [resolvedSize, h206, hne]
      · simp [resolvedSize, h206, hne, hfail]
  · intro rec h
    unfold finalize at h
    by_cases hs : r.status ≠ 200 ∧ r.status ≠ 206
    · simp [hs] at h
    · simp only [hs, if_neg, if_false] at h
      by_cases hneg : resolvedSize r < 0
      · simp [hneg] at h
      · simp only [hneg, if_neg, if_false] at h
        cases h
        rfl

/-- C5 witness: the spec example — a 206 response with
`Content-Range: bytes 0-0/12345` resolves to size 12345 even though the
transport reported a single byte. -/
theorem c5_content_range_total_witness :
    resolvedSize ⟨206, 1, "bytes 0-0/12345", none⟩ = 12345 :=
  (c5_content_range_total ⟨206, 1, "bytes 0-0/12345", none⟩ 0 rfl).1
    0 0 12345 (by decide) (by decide)

/-! ## Claim C10 -/

/-- Little-endian byte decomposition of a 64-bit word round-trips. -/
theorem leUint64_putUint64LE (n : Nat) (h : n < 2 ^ 64) :
    leUint64 (putUint64LE n) = n := by
  simp only [putUint64LE, leUint64]
  have e : (2 : Nat) ^ 64 = 18446744073709551616 := by norm_num
  rw [e] at h
  omega

/-- The int64 → uint64 → int64 cast chain is the identity on the int64
range. -/
theorem uint64ToInt64_int64ToUint64 (i : Int)
    (hlo : -(2 ^ 63) ≤ i) (hhi : i < 2 ^ 63) :
    uint64ToInt64 (int64ToUint64 i) = i := by
  unfold int64ToUint64 uint64ToInt64
  have e1 : ((2 : Int) ^ 64) = 18446744073709551616 := by norm_num
  have e2 : ((2 : Nat) ^ 63) = 9223372036854775808 := by norm_num
  have e3 : ((2 : Int) ^ 63) = 9223372036854775808 := by norm_num
  rw [e1, e2]
  rw [e3] at hlo hhi
  split <;> omega

/-- The uint64 image of an int64 is below 2^64. -/
theorem int64ToUint64_lt (i : Int) : int64ToUint64 i < 2 ^ 64 := by
  unfold int64ToUint64
  have e1 : ((2 : Int) ^ 64) = 18446744073709551616 := by norm_num
  have e2 : ((2 : Nat) ^ 64) = 18446744073709551616 := by norm_num
  rw [e1, e2]
  omega

/-- C10: the 16-byte metadata record encoding round-trips — for every size
in [0, 2^63) and every modification instant whose UnixNano value fits in a
signed 64-bit integer, encoding as two little-endian 64-bit words and
decoding per the cache-hit path yields exactly the same size and the same
instant at nanosecond precision. -/
theorem c10_record_roundtrip (size nano : Int)
    (h0 : 0 ≤ size) (h1 : size < 2 ^ 63)
    (h2 : -(2 ^ 63) ≤ nano) (h3 : nano < 2 ^ 63) :
    decodeRecord (encodeRecord size nano) = some (size, nano) := by
  have hlen : ∀ n : Nat, (putUint64LE n).length = 8 := fun n => rfl
  have htake : (encodeRecord size nano).take 8 = putUint64LE (int64ToUint64 size) := by
    have := List.take_left (putUint64LE (int64ToUint64 size))
      (putUint64LE (int64ToUint64 nano))
    rwa [hlen] at this
  have hdrop : (encodeRecord size nano).drop 8 = putUint64LE (int64ToUint64 nano) := by
    have := List.drop_left (putUint64LE (int64ToUint64 size))
      (putUint64LE (int64ToUint64 nano))
    rwa [hlen] at this
  have hlen16 : (encodeRecord size nano).length = 16 := by
    simp [encodeRecord, List.length_append, hlen]
  unfold decodeRecord
  rw [if_pos hlen16, htake, hdrop,
    leUint64_putUint64LE _ (int64ToUint64_lt size),
    leUint64_putUint64LE _ (int64ToUint64_lt nano),
    uint64ToInt64_int64ToUint64 size (by omega) h1,
    uint64ToInt64_int64ToUint64 nano h2 h3]

/-- C10 witness: the round trip at size 500 and the spec's example
modification instant 2020-10-21T07:28:00Z in UnixNano. -/
theorem c10_record_roundtrip_witness :
    decodeRecord (encodeRecord 500 1603265280000000000) =
      some (500, 1603265280000000000) :=
  c10_record_roundtrip 500 1603265280000000000 (by norm_num) (by norm_num)
    (by norm_num) (by norm_num)

/-! ## Claim C9 -/

/-- C9: canonicalization with both strip flags false is the identity on
every URL string (the function returns before any parsing). -/
theorem c9_strip_noop (u : String) : StripURL u false false = u := rfl

/-! ## Claim C6 -/

/-- C6 counterexample: stripping is not idempotent.  With `stripDomain`
set, `http://h//x` canonicalizes to `//x` (scheme and host removed, the
path kept verbatim), but `//x` re-parses as a protocol-relative URL whose
authority is `x` and whose path is empty, so a second application strips
the remaining text down to the empty string. -/
theorem c6_strip_not_idempotent :
    StripURL "http://h//x" false true = "//x" ∧
    StripURL "//x" false true = "" ∧
    StripURL (StripURL "http://h//x" false true) false true ≠
      StripURL "http://h//x" false true := by
  refine ⟨by decide, by decide, by decide⟩

/-- C6 (amended): canonicalization is idempotent when both strip flags are
false (it is the identity); with stripping enabled it is not idempotent in
general — there is a URL and a flag combination on which a second
application strips further. -/
theorem c6_strip_idempotent_amended :
    (∀ u : String,
        StripURL (StripURL u false false) false false = StripURL u false false) ∧
    (∃ u q d, StripURL (StripURL u q d) q d ≠ StripURL u q d) :=
  ⟨fun _ => rfl, ⟨"http://h//x", false, true, by decide⟩⟩

/-! ## Claim C7 -/

/-- C7: serving an empty target URL returns 400 Bad Request and performs no
side effects: the result is built before `getFileHash`, `Register` and
`ServeFile` run, so the identity table and the hash cache are returned
unchanged and no stat/metadata probe is triggered (the `.badRequest`
constructor is produced without consulting the `stat` collaborator). -/
theorem c7_empty_url_no_side_effects (hashFn : String → String)
    (stripQuery stripDomain : Bool) (shardLevel : Nat)
    (shardedPath : String → Nat → String) (stat : String → StatResult)
    (st : ProxyState) (method rangeHeader : String) (reqHeader : Header) :
    Serve hashFn stripQuery stripDomain shardLevel shardedPath stat st
        method rangeHeader "" reqHeader = (.badRequest, st) :=
  rfl

/-! ## Claim C8 -/

/-- C8: a GET request carrying a non-empty Range header for a resolved file
node of unknown (negative) size is answered with 416 Range Not Satisfiable,
and no constructor that streams file bytes (`servedRanged`, `streamedFull`)
is produced. -/
theorem c8_unknown_size_range_rejected (stat : String → StatResult)
    (remote rangeHeader : String) (n : Node)
    (hstat : stat remote = .okNode n) (hfile : n.isFile = true)
    (hentry : n.hasDirEntry = true) (hopen : n.openOk = true)
    (hsize : n.size < 0) (hrange : rangeHeader ≠ "") :
    ServeFile stat "GET" rangeHeader remote = .rangeNotSatisfiable ∧
    ∀ headers, ServeFile stat "GET" rangeHeader remote ≠ .servedRanged headers ∧
      ServeFile stat "GET" rangeHeader remote ≠ .streamedFull headers := by
  have hns : ¬ (0 ≤ n.size) := by omega
  have h1 : ServeFile stat "GET" rangeHeader remote = .rangeNotSatisfiable := by
    unfold ServeFile
    rw [hstat]
    simp [hfile, hentry, hopen, hns, hrange]
  exact ⟨h1, fun headers => ⟨by rw [h1]; simp, by rw [h1]; simp⟩⟩

/-- A concrete stat collaborator resolving every name to a plain file of
unknown size. -/
def c8Stat : String → StatResult :=
  fun _ => .okNode ⟨true, true, -1, 0, "application/octet-stream", true⟩

/-- C8 witness: the theorem applied to the concrete collaborator and a
concrete ranged GET. -/
theorem c8_unknown_size_range_rejected_witness :
    ServeFile c8Stat "GET" "bytes=0-99" "deadbeef" = .rangeNotSatisfiable :=
  (c8_unknown_size_range_rejected c8Stat "deadbeef" "bytes=0-99"
    ⟨true, true, -1, 0, "application/octet-stream", true⟩
    rfl rfl rfl rfl (by norm_num) (by decide)).1

end VfsProxy
